import Mathlib

/-!
# Verification of the contact-form validation and submission controller

A shallow embedding, in Lean 4, of the form-validation and submission flow of
`js/script.js` (the only script of the site).  JS strings are modelled as Lean
`String`s (sequences of Unicode scalar values; all string literals appearing in
the program are ASCII, where JS UTF-16 length and Lean char-count coincide).
DOM side effects — the per-field error slot `<name>-error`, the `error` CSS
class on a field, the submit button's `disabled`/class/label, the `#form-status`
banner — are modelled as record fields of explicit state, and the asynchronous
pieces (the awaited submission action, the 5-second status auto-hide timer) as
explicit outcome values and pending-timer lists.
-/

namespace Script

/-- The ECMAScript whitespace set (WhiteSpace ∪ LineTerminator): what `\s`
matches in a JS regular expression and what `String.prototype.trim` removes. -/
def isJsWhitespace (c : Char) : Bool :=
  c = ' ' || c = '\t' || c = '\n' || c = '\r' || c = '\x0b' || c = '\x0c' ||
  c = ' ' || c = ' ' ||
  (' ' ≤ c && c ≤ ' ') ||
  c = ' ' || c = ' ' || c = ' ' || c = ' ' ||
  c = '　' || c = '﻿'

/-- `value.trim()`: remove leading and trailing JS whitespace. -/
def jsTrim (s : String) : String :=
  String.mk (((s.data.dropWhile isJsWhitespace).reverse.dropWhile isJsWhitespace).reverse)

/-- A character admitted by the regex character class `[^\s@]`:
neither whitespace nor `@`.  (Note `.` is in this class.) -/
def emailAtomChar (c : Char) : Bool :=
  !(isJsWhitespace c) && c ≠ '@'

/-- Split a character list at the first occurrence of `c`: returns the part
before and the part after, or `none` if `c` does not occur. -/
def splitAtFirst (c : Char) : List Char → Option (List Char × List Char)
  | [] => none
  | x :: xs =>
    if x = c then some ([], xs)
    else (splitAtFirst c xs).map (fun p => (x :: p.1, p.2))

/-- Does the list contain a `'.'` at some position other than the last one?
(That is, a `'.'` with at least one character after it.) -/
def hasDotNotLast : List Char → Bool
  | [] => false
  | [_] => false
  | c :: rest => c = '.' || hasDotNotLast rest

/-- `isValidEmail` (script.js lines 175–178): tests the string against the
regex `^[^\s@]+@[^\s@]+\.[^\s@]+$`.  Both character classes exclude `@`, so a
match is exactly a decomposition `local ++ "@" ++ mid ++ "." ++ tld` with all
three parts non-empty and every character neither whitespace nor `@` (`mid` and
`tld` may themselves contain further dots).  Equivalently: the string has
exactly one `@`, no whitespace, a non-empty part before the `@`, and after the
`@` a `'.'` at some position that is neither first nor last.  The matcher below
splits at the (necessarily unique) `@` and asks for a dot in the tail of the
domain part that is not its last character. -/
def isValidEmail (email : String) : Bool :=
  match splitAtFirst '@' email.data with
  | none => false
  | some (loc, rest) =>
    !loc.isEmpty && loc.all emailAtomChar &&
    (match rest with
     | [] => false
     | _ :: rtail => rest.all emailAtomChar && hasDotNotLast rtail)

/-- `getFieldLabel` (script.js lines 166–173): `labels[fieldName] || fieldName`
on the object literal `{name: 'Name', email: 'Email', message: 'Message'}`.
JS property lookup on an object literal also finds the properties the object
inherits from `Object.prototype` (`toString`, `hasOwnProperty`, …): for those
names the lookup yields the inherited method (truthy), not `undefined`, so the
`|| fieldName` fallback is NOT taken.  The names of those inherited
properties per ECMA-262, in the order they would shadow the fallback. -/
def objectPrototypeProps : List String :=
  ["constructor", "hasOwnProperty", "isPrototypeOf", "propertyIsEnumerable",
   "toLocaleString", "toString", "valueOf",
   "__defineGetter__", "__defineSetter__", "__lookupGetter__",
   "__lookupSetter__", "__proto__"]

/-- How a value inherited from `Object.prototype` prints inside a template
literal (ECMA-262 with V8/Node formatting): the accessor `__proto__` yields
the `Object.prototype` object itself, printing as `[object Object]`;
`constructor` yields `Object.prototype.constructor`, which is the `Object`
constructor function, printing as its source string
`function Object() \x7b [native code] \x7d`; every other inherited property
is a native method whose initial name equals the property name, printing as
`function <propertyName>() \x7b [native code] \x7d`. -/
def inheritedPropString (p : String) : String :=
  if p = "__proto__" then "[object Object]"
  else if p = "constructor" then "function Object() \x7b [native code] \x7d"
  else "function " ++ p ++ "() \x7b [native code] \x7d"

/-- `getFieldLabel` (script.js lines 166–173), with JS property-lookup
semantics as described on `objectPrototypeProps`.  The label is only ever used
inside the template literal of the required-error message, so the
stringification of an inherited property is applied here. -/
def getFieldLabel (fieldName : String) : String :=
  if fieldName = "name" then "Name"
  else if fieldName = "email" then "Email"
  else if fieldName = "message" then "Message"
  else if fieldName ∈ objectPrototypeProps then inheritedPropString fieldName
  else fieldName

/-- A mnemonic for the executable email check's meaning, tying it to the spec's
"simple `local@domain.tld` shape": the decomposition the regex
`^[^\s@]+@[^\s@]+\.[^\s@]+$` accepts. -/
def emailShape (s : String) : Prop :=
  ∃ loc mid tld : List Char,
    s.data = loc ++ '@' :: (mid ++ '.' :: tld) ∧
    loc ≠ [] ∧ mid ≠ [] ∧ tld ≠ [] ∧
    (loc ++ mid ++ tld).all emailAtomChar = true

/-- The observable state of one form field: its current raw text, the text of
its `<name>-error` display slot (`""` = no error shown), and whether the input
carries the `error` CSS class. -/
structure FieldState where
  value : String
  error : String
  errorCssClass : Bool
deriving DecidableEq, Repr

/-- `showFieldError` (script.js lines 150–156): add the `error` class and write
the message into the field's error slot. -/
def showFieldError (f : FieldState) (message : String) : FieldState :=
  { f with errorCssClass := true, error := message }

/-- `clearFieldError` (script.js lines 158–164): remove the `error` class and
empty the field's error slot. -/
def clearFieldError (f : FieldState) : FieldState :=
  { f with errorCssClass := false, error := "" }

/-- `validateField` (script.js lines 110–148).  The field's `name` attribute is
passed alongside its state.  Mirrors the source: trim the value, clear any
previous error, compute `errorMessage` (required check first; otherwise the
`switch` on the field name, an empty string meaning no error — all real
messages are non-empty, so JS truthiness of `errorMessage` is `≠ ""`); if a
message was produced, show it and return `false`, else return `true`. -/
def validateField (fieldName : String) (field : FieldState) : Bool × FieldState :=
  let value := jsTrim field.value
  let field1 := clearFieldError field
  let errorMessage :=
    if value = "" then getFieldLabel fieldName ++ " is required."
    else if fieldName = "email" then
      (if !(isValidEmail value) then "Please enter a valid email address." else "")
    else if fieldName = "name" then
      (if value.length < 2 then "Name must be at least 2 characters long." else "")
    else if fieldName = "message" then
      (if value.length < 10 then "Message must be at least 10 characters long." else "")
    else ""
  if errorMessage ≠ "" then (false, showFieldError field1 errorMessage)
  else (true, field1)

/-! ## The submit flow (`handleFormSubmit`, script.js lines 187–227) -/

/-- The all-field validation pass inlined in `handleFormSubmit` (lines
190–196): `formInputs.forEach` runs `validateField` on every input — the loop
never stops early, `isValid` merely latches `false` — and the pass yields the
conjunction of the per-field results together with the updated field states.
A form's inputs are modelled as the list of (name attribute, field state)
pairs, in document order. -/
def validateAll : List (String × FieldState) → Bool × List (String × FieldState)
  | [] => (true, [])
  | (n, f) :: rest =>
    let r := validateField n f
    let rs := validateAll rest
    (r.1 && rs.1, (n, r.2) :: rs.2)

/-- The settled outcome of `simulateFormSubmission()`'s promise (script.js
lines 229–240): it either resolves, or rejects with some error value.  The
controller awaits it, so any rejection — of any error whatsoever — lands in
the `catch` block. -/
inductive SubmitOutcome
  | resolved
  | rejected (error : String)
deriving DecidableEq, Repr

/-- The submit button (`.form-submit`): the `loading` CSS class, the
`disabled` property, and the visible label (`textContent`). -/
structure SubmitButton where
  loading : Bool
  disabled : Bool
  label : String
deriving DecidableEq, Repr

/-- The whole observable form state: the input fields (name attribute paired
with field state, in document order), the submit button, and the `#form-status`
banner's text and CSS class.  (The banner's 5-second auto-hide timer is
modelled separately, see `TimedStatus` below.) -/
structure FormState where
  fields : List (String × FieldState)
  button : SubmitButton
  status : String
  statusCssClass : String
deriving DecidableEq, Repr

/-- The immediate effect of `showFormStatus(message, type)` (script.js lines
242–252): set the banner's text and its class to `form-status <type>`.  (The
`setTimeout` that re-hides the banner 5000 ms later is modelled with explicit
timers in `TimedStatus`.) -/
def showFormStatus (message kind : String) (st : FormState) : FormState :=
  { st with status := message, statusCssClass := "form-status " ++ kind }

/-- Modelled from the spec: `contactForm.reset()` (script.js line 217)
restores every input to its HTML default value.  The contact form's markup is
not part of the source tree; per the spec, "after a successful submission, all
field values are cleared", so the inputs' default values are empty.  A form
reset touches only input values — the separate error-slot elements and CSS
classes are untouched. -/
def resetFormFields (fields : List (String × FieldState)) : List (String × FieldState) :=
  fields.map (fun p => (p.1, { p.2 with value := "" }))

/-- An observable step of the submit flow, recorded in order: entering the
busy state (lines 207–209), invoking the submission action (line 213), showing
a status banner, resetting the form (line 217), and clearing the busy state
(the `finally` block, lines 222–225). -/
inductive Effect
  | enterBusy
  | submitAttempt
  | showStatus (message kind : String)
  | formReset
  | clearBusy
deriving DecidableEq, Repr, BEq

/-- `handleFormSubmit` (script.js lines 187–227), as a function of the settled
outcome of the (single) awaited submission action.  Returns the new form state
together with the ordered trace of observable effects.  Mirrors the source:
validate all fields; if any failed, show the aggregate error banner and return
(no busy state, no submission).  Otherwise save the button label, enter the
busy state, await the action — `try` resolves to the success banner plus form
reset, `catch` (any rejection) to the generic failure banner — and in
`finally`, unconditionally on either path, restore the button. -/
def handleFormSubmit (outcome : SubmitOutcome) (st : FormState) : FormState × List Effect :=
  let va := validateAll st.fields
  let st1 := { st with fields := va.2 }
  if !va.1 then
    (showFormStatus "Please correct the errors above." "error" st1,
     [Effect.showStatus "Please correct the errors above." "error"])
  else
    let originalText := st1.button.label
    let st2 := { st1 with button := { loading := true, disabled := true, label := "Sending..." } }
    let step3 :=
      match outcome with
      | SubmitOutcome.resolved =>
        let st3 := showFormStatus "Thank you! Your message has been sent successfully." "success" st2
        ({ st3 with fields := resetFormFields st3.fields },
         [Effect.submitAttempt,
          Effect.showStatus "Thank you! Your message has been sent successfully." "success",
          Effect.formReset])
      | SubmitOutcome.rejected _ =>
        (showFormStatus "Sorry, there was an error sending your message. Please try again." "error" st2,
         [Effect.submitAttempt,
          Effect.showStatus "Sorry, there was an error sending your message. Please try again." "error"])
    ({ step3.1 with
        button := { loading := false, disabled := false, label := originalText } },
     Effect.enterBusy :: step3.2 ++ [Effect.clearBusy])

/-! ## Per-field event wiring (`setupFormValidation`, script.js lines 103–108) -/

/-- The events a single field receives: the user editing its value (the DOM
fires `input`, whose listener is `clearFieldError`) and the field losing focus
(the DOM fires `blur`, whose listener is `validateField`). -/
inductive FieldEvent
  | edit (newValue : String)
  | blur
deriving DecidableEq, Repr

/-- One step of the per-field wiring of `setupFormValidation`: an edit updates
the value and immediately clears the displayed error; a blur runs
`validateField` on the current state. -/
def fieldStep (fieldName : String) (f : FieldState) : FieldEvent → FieldState
  | FieldEvent.edit v => clearFieldError { f with value := v }
  | FieldEvent.blur => (validateField fieldName f).2

/-! ## The status banner's auto-hide timer (`showFormStatus`, lines 242–252) -/

/-- The `#form-status` banner with its pending `setTimeout` callbacks: current
time (ms), banner text and class, and the list of scheduled hide times.  Each
`showFormStatus` call schedules a non-cancelable callback 5000 ms later that
resets the class to plain `form-status` (hiding the banner); showing again
does NOT cancel earlier callbacks. -/
structure TimedStatus where
  time : Nat
  statusText : String
  statusCssClass : String
  timers : List Nat
deriving DecidableEq, Repr

/-- Let the clock advance to time `t`: every pending hide callback due at or
before `t` fires, setting the class back to plain `form-status` (firing order
is immaterial — each fired callback writes the same class), and fired
callbacks are removed. -/
def advanceTo (t : Nat) (s : TimedStatus) : TimedStatus :=
  { time := t
    statusText := s.statusText
    statusCssClass :=
      if s.timers.any (fun ft => ft ≤ t) then "form-status" else s.statusCssClass
    timers := s.timers.filter (fun ft => t < ft) }

/-- `showFormStatus(message, type)` executed at the current time: set the
banner text and class, and schedule the hide callback 5000 ms from now. -/
def showFormStatusAt (message kind : String) (s : TimedStatus) : TimedStatus :=
  { s with statusText := message
           statusCssClass := "form-status " ++ kind
           timers := s.timers ++ [s.time + 5000] }

/-- Run a chronological sequence of `showFormStatus` calls, each given as
(time, message, type): advance the clock to each call's time (firing due hide
callbacks) and perform the call. -/
def runShows : TimedStatus → List (Nat × String × String) → TimedStatus
  | s, [] => s
  | s, (t, m, k) :: rest => runShows (showFormStatusAt m k (advanceTo t s)) rest

/-! ## Spec-side restatement of the per-field rule (spec §4.1), for C1 -/

/-- The field-specific content constraint, as the spec words it: applied "only
if non-empty — email must match a simple `local@domain.tld` shape, name must
be ≥2 characters, message must be ≥10 characters"; a field outside the fixed
rule table has no content constraint.  `none` = the constraint passes. -/
def fieldContentRule (fieldName : String) (trimmed : String) : Option String :=
  if fieldName = "email" then
    if isValidEmail trimmed then none else some "Please enter a valid email address."
  else if fieldName = "name" then
    if 2 ≤ trimmed.length then none else some "Name must be at least 2 characters long."
  else if fieldName = "message" then
    if 10 ≤ trimmed.length then none else some "Message must be at least 10 characters long."
  else none

/-- `validateField` as spec §4.1 states it, for comparison with the embedding
of the source: trim the value; rule (a) — an empty trimmed value fails with
"<Label> is required." regardless of any field-specific rule; rule (b) — the
content constraint, checked only for a non-empty trimmed value.  The first
failing rule's message is recorded (`false`); otherwise the field is valid and
any prior message is cleared (`true`). -/
def validateFieldSpec (fieldName : String) (field : FieldState) : Bool × FieldState :=
  let trimmed := jsTrim field.value
  let firstFailure :=
    if trimmed = "" then some (getFieldLabel fieldName ++ " is required.")
    else fieldContentRule fieldName trimmed
  match firstFailure with
  | some msg => (false, { field with error := msg, errorCssClass := true })
  | none => (true, { field with error := "", errorCssClass := false })

/-! ## Concrete sample forms -/

/-- A concrete form whose three fields all pass validation. -/
def sampleValidForm : FormState :=
  { fields :=
      [("name", ⟨"Ada Lovelace", "", false⟩),
       ("email", ⟨"ada@example.com", "", false⟩),
       ("message", ⟨"Hello from the contact form!", "", false⟩)]
    button := { loading := false, disabled := false, label := "Send Message" }
    status := ""
    statusCssClass := "form-status" }

/-- A concrete form whose name field fails validation (too short). -/
def sampleInvalidForm : FormState :=
  { fields :=
      [("name", ⟨"A", "", false⟩),
       ("email", ⟨"ada@example.com", "", false⟩),
       ("message", ⟨"Hello from the contact form!", "", false⟩)]
    button := { loading := false, disabled := false, label := "Send Message" }
    status := ""
    statusCssClass := "form-status" }

/-! ## Sanity checks on concrete inputs -/

example : isValidEmail "a@b.c" = true := by decide
example : isValidEmail "not-an-email" = false := by decide
example : isValidEmail "a@b.c.d" = true := by decide
example : isValidEmail "a@.c" = false := by decide
example : isValidEmail "a@b." = false := by decide
example : isValidEmail "@b.c" = false := by decide
example : isValidEmail "a b@c.d" = false := by decide
example : isValidEmail "a@b@c.d" = false := by decide
example : jsTrim "  hi \t" = "hi" := by decide
example : validateField "name" ⟨" A ", "", false⟩ =
    (false, ⟨" A ", "Name must be at least 2 characters long.", true⟩) := by decide
example : validateField "name" ⟨"Al", "old", true⟩ = (true, ⟨"Al", "", false⟩) := by decide
example : validateField "email" ⟨"  ", "", false⟩ =
    (false, ⟨"  ", "Email is required.", true⟩) := by decide
example : (validateField "toString" ⟨"", "", false⟩).2.error =
    "function toString() \x7b [native code] \x7d is required." := by decide
example : (validateField "constructor" ⟨"", "", false⟩).2.error =
    "function Object() \x7b [native code] \x7d is required." := by decide
example : (validateField "__proto__" ⟨"", "", false⟩).2.error =
    "[object Object] is required." := by decide
example : (validateAll sampleValidForm.fields).1 = true := by decide
example : (validateAll sampleInvalidForm.fields).1 = false := by decide

/-! ## Helper lemmas -/

theorem splitAtFirst_eq_some {c : Char} {l : List Char} :
    ∀ {a b : List Char}, splitAtFirst c l = some (a, b) → l = a ++ c :: b ∧ c ∉ a := by
  induction l with
  | nil => intro a b h; simp [splitAtFirst] at h
  | cons x xs ih =>
    intro a b h
    by_cases hx : x = c
    · rw [splitAtFirst, if_pos hx] at h
      injection h with h
      injection h with ha hb
      subst ha; subst hb; subst hx
      simp
    · rw [splitAtFirst, if_neg hx] at h
      cases hsp : splitAtFirst c xs with
      | none => rw [hsp] at h; simp at h
      | some pr =>
        obtain ⟨a', b'⟩ := pr
        rw [hsp, Option.map_some'] at h
        injection h with h
        injection h with ha hb
        subst ha; subst hb
        obtain ⟨hl, hna⟩ := ih hsp
        refine ⟨by rw [List.cons_append, hl], ?_⟩
        intro hc
        rcases List.mem_cons.mp hc with h1 | h1
        · exact hx h1.symm
        · exact hna h1

theorem splitAtFirst_of_decomp {c : Char} {b : List Char} :
    ∀ {a : List Char}, c ∉ a → splitAtFirst c (a ++ c :: b) = some (a, b) := by
  intro a
  induction a with
  | nil => intro _; simp [splitAtFirst]
  | cons a0 a' ih =>
    intro hna
    have h0 : a0 ≠ c := fun h => hna (h ▸ List.mem_cons_self a0 a')
    have h' : c ∉ a' := fun h => hna (List.mem_cons_of_mem a0 h)
    rw [List.cons_append, splitAtFirst, if_neg h0, ih h', Option.map_some']

theorem hasDotNotLast_iff (l : List Char) :
    hasDotNotLast l = true ↔ ∃ a b : List Char, l = a ++ '.' :: b ∧ b ≠ [] := by
  induction l with
  | nil =>
    constructor
    · intro h
      exact absurd h (by rw [show hasDotNotLast [] = false from rfl]; simp)
    · rintro ⟨a, b, hab, -⟩
      cases a <;> simp at hab
  | cons x xs ih =>
    cases xs with
    | nil =>
      constructor
      · intro h
        exact absurd h (by rw [show hasDotNotLast [x] = false from rfl]; simp)
      · rintro ⟨a, b, hab, hb⟩
        cases a with
        | nil =>
          rw [List.nil_append] at hab
          injection hab with h1 h2
          exact (hb h2.symm).elim
        | cons a0 a' =>
          rw [List.cons_append] at hab
          injection hab with h1 h2
          exact absurd h2.symm (by simp)
    | cons y ys =>
      rw [show hasDotNotLast (x :: y :: ys) = (decide (x = '.') || hasDotNotLast (y :: ys)) from rfl]
      rw [Bool.or_eq_true, decide_eq_true_eq, ih]
      constructor
      · rintro (hx | ⟨a, b, hab, hb⟩)
        · exact ⟨[], y :: ys, by rw [hx]; rfl, by simp⟩
        · exact ⟨x :: a, b, by rw [List.cons_append, hab], hb⟩
      · rintro ⟨a, b, hab, hb⟩
        cases a with
        | nil =>
          rw [List.nil_append] at hab
          injection hab with h1 h2
          exact Or.inl h1
        | cons a0 a' =>
          rw [List.cons_append] at hab
          injection hab with h1 h2
          exact Or.inr ⟨a', b, h2, hb⟩

theorem not_isEmpty_iff_ne_nil (l : List Char) : (!l.isEmpty) = true ↔ l ≠ [] := by
  cases l <;> simp

theorem isValidEmail_iff_emailShape (s : String) :
    isValidEmail s = true ↔ emailShape s := by
  unfold isValidEmail emailShape
  cases hsp : splitAtFirst '@' s.data with
  | none =>
    constructor
    · intro h; exact Bool.noConfusion h
    · rintro ⟨loc, mid, tld, hdecomp, hloc, hmid, htld, hall⟩
      exfalso
      have hatloc : '@' ∉ loc := by
        intro hm
        have h1 := List.all_eq_true.mp hall '@'
          (List.mem_append.mpr (Or.inl (List.mem_append.mpr (Or.inl hm))))
        exact absurd h1 (by decide)
      have h2 := splitAtFirst_of_decomp (c := '@') (b := mid ++ '.' :: tld) hatloc
      rw [← hdecomp, hsp] at h2
      exact Option.noConfusion h2
  | some pr =>
    obtain ⟨loc0, rest⟩ := pr
    obtain ⟨hdec, hnotin⟩ := splitAtFirst_eq_some hsp
    cases rest with
    | nil =>
      constructor
      · intro h
        rw [Bool.and_eq_true] at h
        exact Bool.noConfusion h.2
      · rintro ⟨loc, mid, tld, hdecomp, hloc, hmid, htld, hall⟩
        exfalso
        have hatloc : '@' ∉ loc := by
          intro hm
          have h1 := List.all_eq_true.mp hall '@'
            (List.mem_append.mpr (Or.inl (List.mem_append.mpr (Or.inl hm))))
          exact absurd h1 (by decide)
        have h2 := splitAtFirst_of_decomp (c := '@') (b := mid ++ '.' :: tld) hatloc
        rw [← hdecomp, hsp] at h2
        injection h2 with h2
        injection h2 with h2a h2b
        cases mid <;> simp at h2b
    | cons r0 rtail =>
      simp only [Bool.and_eq_true, not_isEmpty_iff_ne_nil]
      constructor
      · rintro ⟨⟨hne, hall0⟩, hallr, hdot⟩
        obtain ⟨a, b, hr, hb⟩ := (hasDotNotLast_iff rtail).mp hdot
        refine ⟨loc0, r0 :: a, b, ?_, hne, by simp, hb, ?_⟩
        · rw [hdec, hr]; simp
        · subst hr
          simp only [List.all_append, List.all_cons, Bool.and_eq_true] at hall0 hallr ⊢
          exact ⟨⟨hall0, hallr.1, hallr.2.1⟩, hallr.2.2.2⟩
      · rintro ⟨loc, mid, tld, hdecomp, hloc, hmid, htld, hall⟩
        have hatloc : '@' ∉ loc := by
          intro hm
          have h1 := List.all_eq_true.mp hall '@'
            (List.mem_append.mpr (Or.inl (List.mem_append.mpr (Or.inl hm))))
          exact absurd h1 (by decide)
        have h2 := splitAtFirst_of_decomp (c := '@') (b := mid ++ '.' :: tld) hatloc
        rw [← hdecomp, hsp] at h2
        injection h2 with h2
        injection h2 with h2a h2b
        subst h2a
        simp only [List.all_append, List.all_cons, Bool.and_eq_true] at hall
        refine ⟨⟨?_, ?_⟩, ?_, ?_⟩
        · exact hloc
        · exact hall.1.1
        · rw [show (r0 :: rtail).all emailAtomChar = (mid ++ '.' :: tld).all emailAtomChar from by rw [h2b]]
          simp only [List.all_append, List.all_cons, Bool.and_eq_true]
          exact ⟨hall.1.2, by decide, hall.2⟩
        · cases mid with
          | nil => exact absurd rfl hmid
          | cons m0 m' =>
            rw [List.cons_append] at h2b
            injection h2b with h2b1 h2b2
            exact (hasDotNotLast_iff rtail).mpr ⟨m', tld, h2b2, htld⟩

theorem required_message_ne_empty (s : String) : s ++ " is required." ≠ "" := by
  intro h
  have h1 : (s ++ " is required.").length = ("" : String).length := by rw [h]
  rw [String.length_append] at h1
  have h2 : (" is required." : String).length = 13 := rfl
  have h3 : ("" : String).length = 0 := rfl
  omega

theorem validateField_canon (n : String) (f : FieldState) :
    validateField n f = validateField n ⟨f.value, "", false⟩ := rfl

theorem validateField_preserves_value (n : String) (f : FieldState) :
    ((validateField n f).2).value = f.value := by
  unfold validateField clearFieldError showFieldError
  dsimp only
  rw [apply_ite (fun p : Bool × FieldState => p.2.value)]
  dsimp only
  rw [ite_self]

/-! ## Claim theorems -/

/-- C1: for every field, `validateField` first trims the value; a value that is
empty after trimming fails with "<Label> is required." regardless of any
field-specific rule; only for a non-empty trimmed value is the field-specific
constraint checked (email shape, name ≥ 2 characters, message ≥ 10
characters); it returns `false` recording exactly the first failing rule's
message, and returns `true` clearing any prior message otherwise.  Stated as:
the source's `validateField` coincides with `validateFieldSpec`, the function
written from the spec's words. -/
theorem validateField_matches_spec_rule_order (n : String) (f : FieldState) :
    validateField n f = validateFieldSpec n f := by
  have hm1 : ("Please enter a valid email address." : String) ≠ "" := by decide
  have hm2 : ("Name must be at least 2 characters long." : String) ≠ "" := by decide
  have hm3 : ("Message must be at least 10 characters long." : String) ≠ "" := by decide
  unfold validateField validateFieldSpec fieldContentRule clearFieldError showFieldError
  dsimp only
  by_cases h0 : jsTrim f.value = ""
  · simp [h0, required_message_ne_empty]
  · by_cases h1 : n = "email"
    · subst h1
      by_cases he : isValidEmail (jsTrim f.value) = true
      · simp [h0, he]
      · simp [h0, he, hm1]
    · by_cases h2 : n = "name"
      · subst h2
        rcases Nat.lt_or_ge (jsTrim f.value).length 2 with hl | hl
        · have hl' : ¬(2 ≤ (jsTrim f.value).length) := by omega
          simp [h0, h1, hl, hl', hm2]
        · have hl' : ¬((jsTrim f.value).length < 2) := by omega
          simp [h0, h1, hl, hl']
      · by_cases h3 : n = "message"
        · subst h3
          rcases Nat.lt_or_ge (jsTrim f.value).length 10 with hl | hl
          · have hl' : ¬(10 ≤ (jsTrim f.value).length) := by omega
            simp [h0, h1, h2, hl, hl', hm3]
          · have hl' : ¬((jsTrim f.value).length < 10) := by omega
            simp [h0, h1, h2, hl, hl']
        · simp [h0, h1, h2, h3]

/-- C5: for the email field, `validateField` accepts "a@b.c" and rejects
"not-an-email" with the email-format message; in general a non-empty (after
trimming) email value is valid exactly when it matches the simple
`local@domain.tld` shape that the regex `^[^\s@]+@[^\s@]+\.[^\s@]+$`
describes. -/
theorem email_field_shape :
    (∀ f : FieldState, jsTrim f.value ≠ "" →
        ((validateField "email" f).1 = true ↔ emailShape (jsTrim f.value))) ∧
    validateField "email" ⟨"a@b.c", "", false⟩ = (true, ⟨"a@b.c", "", false⟩) ∧
    validateField "email" ⟨"not-an-email", "", false⟩
      = (false, ⟨"not-an-email", "Please enter a valid email address.", true⟩) := by
  refine ⟨?_, by decide, by decide⟩
  intro f h0
  have hb : (validateField "email" f).1 = isValidEmail (jsTrim f.value) := by
    unfold validateField clearFieldError showFieldError
    dsimp only
    by_cases he : isValidEmail (jsTrim f.value) = true
    · simp [h0, he]
    · simp [h0, he, (by decide : ("Please enter a valid email address." : String) ≠ "")]
  rw [hb]
  exact isValidEmail_iff_emailShape (jsTrim f.value)

/-- C5 witness: the general shape equivalence applied at the concrete non-empty
value "x@y.zw". -/
theorem email_field_shape_witness :
    (validateField "email" ⟨"x@y.zw", "", false⟩).1 = true ↔ emailShape (jsTrim "x@y.zw") :=
  email_field_shape.1 ⟨"x@y.zw", "", false⟩ (by decide)

/-- C10 counterexample: the claim says a field named by anything other than
name/email/message reports the required error "using the raw field name itself
as the label", but for the field name "toString" the lookup
`labels[fieldName]` finds `Object.prototype.toString` (truthy), so the `||`
fallback to the raw name is not taken: the message is
"function toString() \x7b [native code] \x7d is required.", not
"toString is required.". -/
theorem unknown_field_label_counterexample :
    ¬ ((validateField "toString" ⟨"", "", false⟩).2.error = "toString is required.") := by
  decide

/-- C10 (amended): for any field whose name is not one of name, email, or
message, `validateField` applies only the required rule — it returns `true`
(with the error display cleared) for every value that is non-empty after
trimming, and for an empty trimmed value it returns `false` reporting the
required error, whose label is the raw field name itself provided the name is
not a property inherited from `Object.prototype` (for such names the inherited
value's stringification is used instead). -/
theorem unknown_field_required_only (n : String) (f : FieldState)
    (hn : n ≠ "name") (he : n ≠ "email") (hm : n ≠ "message") :
    (jsTrim f.value ≠ "" →
        validateField n f = (true, { f with error := "", errorCssClass := false })) ∧
    (jsTrim f.value = "" →
        (validateField n f).1 = false ∧
        (validateField n f).2.error = getFieldLabel n ++ " is required." ∧
        (n ∉ objectPrototypeProps →
          (validateField n f).2.error = n ++ " is required.")) := by
  constructor
  · intro h0
    unfold validateField clearFieldError showFieldError
    dsimp only
    simp [h0, he, hn, hm]
  · intro h0
    have hlab : n ∉ objectPrototypeProps →
        getFieldLabel n = n := by
      intro hc
      unfold getFieldLabel
      rw [if_neg hn, if_neg he, if_neg hm, if_neg hc]
    have hres : validateField n f
        = (false, { f with error := getFieldLabel n ++ " is required.", errorCssClass := true }) := by
      unfold validateField clearFieldError showFieldError
      dsimp only
      simp [h0, required_message_ne_empty]
    refine ⟨by rw [hres], by rw [hres], ?_⟩
    intro hc
    rw [hres, hlab hc]

/-- C10 witness: the amended claim applied to a field named "phone" with a
whitespace-only value and with a non-empty value. -/
theorem unknown_field_required_only_witness :
    (validateField "phone" ⟨" ", "", false⟩).1 = false ∧
    (validateField "phone" ⟨" ", "", false⟩).2.error = "phone is required." ∧
    validateField "phone" ⟨"555", "old error", true⟩
      = (true, { value := "555", error := "", errorCssClass := false }) := by
  have h := unknown_field_required_only "phone" ⟨" ", "", false⟩
    (by decide) (by decide) (by decide)
  have h2 := unknown_field_required_only "phone" ⟨"555", "old error", true⟩
    (by decide) (by decide) (by decide)
  refine ⟨(h.2 (by decide)).1, ?_, h2.1 (by decide)⟩
  have h3 := (h.2 (by decide)).2.2 (by decide)
  exact h3

theorem validateAll_eq (fields : List (String × FieldState)) :
    validateAll fields =
      (fields.all (fun p => (validateField p.1 p.2).1),
       fields.map (fun p => (p.1, (validateField p.1 p.2).2))) := by
  induction fields with
  | nil => rfl
  | cons p rest ih =>
    obtain ⟨n, f⟩ := p
    simp only [validateAll, ih, List.all_cons, List.map_cons]

theorem validateAll_preserves_values (fields : List (String × FieldState)) :
    (validateAll fields).2.map (fun p => (p.1, p.2.value))
      = fields.map (fun p => (p.1, p.2.value)) := by
  induction fields with
  | nil => rfl
  | cons p rest ih =>
    obtain ⟨n, f⟩ := p
    simp only [validateAll, List.map_cons, ih, validateField_preserves_value]

/-- C3: the all-field validation pass runs `validateField` on every field in
the list without short-circuiting — afterwards each field's state (its error
slot included) is exactly `validateField`'s output for that very field, even
when an earlier field failed — and the pass returns the logical AND
(`List.all`) of the per-field results. -/
theorem validateAll_no_short_circuit (fields : List (String × FieldState)) :
    validateAll fields =
      (fields.all (fun p => (validateField p.1 p.2).1),
       fields.map (fun p => (p.1, (validateField p.1 p.2).2))) :=
  validateAll_eq fields

theorem fieldStep_preserves_pure_error (n : String) (trace : List FieldEvent) :
    ∀ f : FieldState,
      (f.error = "" ∨ f.error = ((validateField n ⟨f.value, "", false⟩).2).error) →
      ((trace.foldl (fieldStep n) f).error = "" ∨
        (trace.foldl (fieldStep n) f).error
          = ((validateField n ⟨(trace.foldl (fieldStep n) f).value, "", false⟩).2).error) := by
  induction trace with
  | nil => intro f h; simpa using h
  | cons e rest ih =>
    intro f _
    rw [List.foldl_cons]
    apply ih
    cases e with
    | edit v => exact Or.inl rfl
    | blur =>
      right
      have hv : (fieldStep n f FieldEvent.blur).value = f.value :=
        validateField_preserves_value n f
      rw [hv]
      show ((validateField n f).2).error = _
      rw [validateField_canon]

/-- C6: a field's displayed error state is a pure function of its
last-validated value — over any sequence of edit and blur events, the
displayed error is either cleared or exactly what validating the field's
current value displays, and an edit always clears the previously displayed
error before the next validation, so no stale message remains visible after
the value changes. -/
theorem displayed_error_never_stale (n v0 : String) (trace : List FieldEvent) :
    ((trace.foldl (fieldStep n) ⟨v0, "", false⟩).error = "" ∨
      (trace.foldl (fieldStep n) ⟨v0, "", false⟩).error
        = ((validateField n
            ⟨(trace.foldl (fieldStep n) ⟨v0, "", false⟩).value, "", false⟩).2).error) ∧
    (∀ v : String,
      ((trace ++ [FieldEvent.edit v]).foldl (fieldStep n) ⟨v0, "", false⟩).error = "") := by
  constructor
  · exact fieldStep_preserves_pure_error n trace ⟨v0, "", false⟩ (Or.inl rfl)
  · intro v
    rw [List.foldl_append]
    rfl

/-- C2: on a fully valid form the busy state is entered exactly once and
cleared exactly once per attempt — the first effect is entering it, the last
is clearing it — and this holds for every outcome of the submission action
(resolution or rejection with any error), so after the attempt settles the
submit control is enabled, not loading, and carries its original label. -/
theorem busy_state_entered_and_cleared_once (outcome : SubmitOutcome) (st : FormState)
    (h : (validateAll st.fields).1 = true) :
    ((handleFormSubmit outcome st).2.count Effect.enterBusy = 1) ∧
    ((handleFormSubmit outcome st).2.count Effect.clearBusy = 1) ∧
    (handleFormSubmit outcome st).2.head? = some Effect.enterBusy ∧
    (handleFormSubmit outcome st).2.getLast? = some Effect.clearBusy ∧
    (handleFormSubmit outcome st).1.button
      = { loading := false, disabled := false, label := st.button.label } := by
  cases outcome with
  | resolved =>
    have htr : (handleFormSubmit SubmitOutcome.resolved st).2
        = [Effect.enterBusy, Effect.submitAttempt,
           Effect.showStatus "Thank you! Your message has been sent successfully." "success",
           Effect.formReset, Effect.clearBusy] := by
      simp [handleFormSubmit, h]
    have hb : (handleFormSubmit SubmitOutcome.resolved st).1.button
        = { loading := false, disabled := false, label := st.button.label } := by
      simp [handleFormSubmit, h, showFormStatus, resetFormFields]
    rw [htr, hb]
    exact ⟨by decide, by decide, by decide, by decide, rfl⟩
  | rejected err =>
    have htr : (handleFormSubmit (SubmitOutcome.rejected err) st).2
        = [Effect.enterBusy, Effect.submitAttempt,
           Effect.showStatus "Sorry, there was an error sending your message. Please try again." "error",
           Effect.clearBusy] := by
      simp [handleFormSubmit, h]
    have hb : (handleFormSubmit (SubmitOutcome.rejected err) st).1.button
        = { loading := false, disabled := false, label := st.button.label } := by
      simp [handleFormSubmit, h, showFormStatus]
    rw [htr, hb]
    exact ⟨by decide, by decide, by decide, by decide, rfl⟩

/-- C2 witness: the busy-state contract at a concrete valid form whose
submission action rejects. -/
theorem busy_state_entered_and_cleared_once_witness :
    ((handleFormSubmit (SubmitOutcome.rejected "network down") sampleValidForm).2.count
        Effect.enterBusy = 1) ∧
    ((handleFormSubmit (SubmitOutcome.rejected "network down") sampleValidForm).2.count
        Effect.clearBusy = 1) ∧
    (handleFormSubmit (SubmitOutcome.rejected "network down") sampleValidForm).2.head?
        = some Effect.enterBusy ∧
    (handleFormSubmit (SubmitOutcome.rejected "network down") sampleValidForm).2.getLast?
        = some Effect.clearBusy ∧
    (handleFormSubmit (SubmitOutcome.rejected "network down") sampleValidForm).1.button
      = { loading := false, disabled := false, label := sampleValidForm.button.label } :=
  busy_state_entered_and_cleared_once (SubmitOutcome.rejected "network down")
    sampleValidForm (by decide)

/-- C4: after a submission attempt on a valid form — if the submission action
succeeded, all field values are cleared; if it failed, every field value is
left exactly as it was (preserved for resubmission). -/
theorem field_values_cleared_or_preserved (err : String) (st : FormState)
    (h : (validateAll st.fields).1 = true) :
    ((handleFormSubmit SubmitOutcome.resolved st).1.fields.map (fun p => (p.1, p.2.value))
        = st.fields.map (fun p => (p.1, ("" : String)))) ∧
    ((handleFormSubmit (SubmitOutcome.rejected err) st).1.fields.map (fun p => (p.1, p.2.value))
        = st.fields.map (fun p => (p.1, p.2.value))) := by
  constructor
  · have hf : (handleFormSubmit SubmitOutcome.resolved st).1.fields
        = resetFormFields (validateAll st.fields).2 := by
      simp [handleFormSubmit, h, showFormStatus]
    rw [hf]
    unfold resetFormFields
    rw [List.map_map, validateAll_eq, List.map_map]
    rfl
  · have hf : (handleFormSubmit (SubmitOutcome.rejected err) st).1.fields
        = (validateAll st.fields).2 := by
      simp [handleFormSubmit, h, showFormStatus]
    rw [hf]
    exact validateAll_preserves_values st.fields

/-- C4 witness: the frame condition evaluated at a concrete valid form, for a
succeeding and for a failing submission action. -/
theorem field_values_cleared_or_preserved_witness :
    ((handleFormSubmit SubmitOutcome.resolved sampleValidForm).1.fields.map
        (fun p => (p.1, p.2.value))
      = sampleValidForm.fields.map (fun p => (p.1, ("" : String)))) ∧
    ((handleFormSubmit (SubmitOutcome.rejected "boom") sampleValidForm).1.fields.map
        (fun p => (p.1, p.2.value))
      = sampleValidForm.fields.map (fun p => (p.1, p.2.value))) :=
  field_values_cleared_or_preserved "boom" sampleValidForm (by decide)

/-- C7: whenever at least one field is invalid, the submit handler shows the
single aggregate status message "Please correct the errors above." classified
as an error, performs no other effect — in particular no submission attempt
and no busy state — and leaves the submit control untouched (no lockout of
further attempts), independently of what the submission action would have
done. -/
theorem invalid_submit_rejected_immediately (outcome : SubmitOutcome) (st : FormState)
    (h : (validateAll st.fields).1 = false) :
    (handleFormSubmit outcome st).1.status = "Please correct the errors above." ∧
    (handleFormSubmit outcome st).1.statusCssClass = "form-status error" ∧
    (handleFormSubmit outcome st).2
      = [Effect.showStatus "Please correct the errors above." "error"] ∧
    (handleFormSubmit outcome st).1.button = st.button := by
  refine ⟨?_, ?_, ?_, ?_⟩ <;> simp [handleFormSubmit, h, showFormStatus]

/-- C7 witness: the rejection behavior at a concrete form with one invalid
field. -/
theorem invalid_submit_rejected_immediately_witness :
    (handleFormSubmit SubmitOutcome.resolved sampleInvalidForm).1.status
        = "Please correct the errors above." ∧
    (handleFormSubmit SubmitOutcome.resolved sampleInvalidForm).1.statusCssClass
        = "form-status error" ∧
    (handleFormSubmit SubmitOutcome.resolved sampleInvalidForm).2
        = [Effect.showStatus "Please correct the errors above." "error"] ∧
    (handleFormSubmit SubmitOutcome.resolved sampleInvalidForm).1.button
        = sampleInvalidForm.button :=
  invalid_submit_rejected_immediately SubmitOutcome.resolved sampleInvalidForm (by decide)

/-- C9: any two errors the submission action may report produce literally
identical user-facing outcomes — the same final form state and the same
effect trace — and on a valid form that outcome is the generic failure
banner, so no detail of the underlying error is surfaced. -/
theorem submission_error_detail_hidden (e1 e2 : String) (st : FormState) :
    handleFormSubmit (SubmitOutcome.rejected e1) st
      = handleFormSubmit (SubmitOutcome.rejected e2) st ∧
    ((validateAll st.fields).1 = true →
      (handleFormSubmit (SubmitOutcome.rejected e1) st).1.status
        = "Sorry, there was an error sending your message. Please try again." ∧
      (handleFormSubmit (SubmitOutcome.rejected e1) st).1.statusCssClass
        = "form-status error") := by
  refine ⟨rfl, ?_⟩
  intro h
  refine ⟨?_, ?_⟩ <;> simp [handleFormSubmit, h, showFormStatus]

/-- C9 witness: two different rejection errors at a concrete valid form. -/
theorem submission_error_detail_hidden_witness :
    handleFormSubmit (SubmitOutcome.rejected "timeout") sampleValidForm
      = handleFormSubmit (SubmitOutcome.rejected "HTTP 500") sampleValidForm ∧
    (handleFormSubmit (SubmitOutcome.rejected "timeout") sampleValidForm).1.status
      = "Sorry, there was an error sending your message. Please try again." :=
  ⟨(submission_error_detail_hidden "timeout" "HTTP 500" sampleValidForm).1,
   ((submission_error_detail_hidden "timeout" "HTTP 500" sampleValidForm).2 (by decide)).1⟩

theorem runShows_append (l1 l2 : List (Nat × String × String)) :
    ∀ s : TimedStatus, runShows s (l1 ++ l2) = runShows (runShows s l1) l2 := by
  induction l1 with
  | nil => intro s; rfl
  | cons e rest ih =>
    intro s
    obtain ⟨t, m, k⟩ := e
    rw [List.cons_append]
    show runShows (showFormStatusAt m k (advanceTo t s)) (rest ++ l2) = _
    rw [ih]
    rfl

theorem timer_survives {ft : Nat} (post : List (Nat × String × String)) :
    ∀ s : TimedStatus, ft ∈ s.timers → (∀ e ∈ post, e.1 < ft) →
      ft ∈ (runShows s post).timers := by
  induction post with
  | nil => intro s hmem _; simpa using hmem
  | cons e rest ih =>
    intro s hmem hpost
    obtain ⟨t, m, k⟩ := e
    show ft ∈ (runShows (showFormStatusAt m k (advanceTo t s)) rest).timers
    apply ih
    · show ft ∈ (advanceTo t s).timers ++ [t + 5000]
      apply List.mem_append_left
      show ft ∈ s.timers.filter (fun x => t < x)
      rw [List.mem_filter]
      exact ⟨hmem, by
        have := hpost (t, m, k) (List.mem_cons_self _ _)
        simpa using this⟩
    · intro e he
      exact hpost e (List.mem_cons_of_mem _ he)

/-- C8: every aggregate status banner, once shown at some time `t`, is
self-cleared by the non-cancelable callback that the show scheduled: at time
`t + 5000` the banner's CSS class is back to plain `form-status` (hidden),
regardless of any further `showFormStatus` calls started before that moment —
and in particular (taking `post = []`) even if no further user action occurs:
the banner's visibility has a TTL, not an event-driven dismissal. -/
theorem status_banner_ttl (pre post : List (Nat × String × String)) (t : Nat)
    (m k : String) (s0 : TimedStatus)
    (hpost : ∀ e ∈ post, e.1 < t + 5000) :
    (advanceTo (t + 5000) (runShows s0 (pre ++ (t, m, k) :: post))).statusCssClass
      = "form-status" := by
  rw [runShows_append]
  have hstep : runShows (runShows s0 pre) ((t, m, k) :: post)
      = runShows (showFormStatusAt m k (advanceTo t (runShows s0 pre))) post := rfl
  rw [hstep]
  have hmem : t + 5000 ∈ (showFormStatusAt m k (advanceTo t (runShows s0 pre))).timers := by
    show t + 5000 ∈ (advanceTo t (runShows s0 pre)).timers
      ++ [(advanceTo t (runShows s0 pre)).time + 5000]
    apply List.mem_append_right
    show t + 5000 ∈ [t + 5000]
    exact List.mem_singleton.mpr rfl
  have hsurv := timer_survives post _ hmem hpost
  show (if (runShows (showFormStatusAt m k (advanceTo t (runShows s0 pre))) post).timers.any
          (fun ft => ft ≤ t + 5000) then "form-status"
        else (runShows (showFormStatusAt m k (advanceTo t (runShows s0 pre))) post).statusCssClass)
      = "form-status"
  rw [if_pos]
  exact List.any_eq_true.mpr ⟨t + 5000, hsurv, by simp⟩

/-- C8 witness: a banner shown at time 0 on a fresh page, with a second banner
shown at time 3000 (a new submission before the first TTL expired): at time
5000 the class is plain `form-status` again. -/
theorem status_banner_ttl_witness :
    (advanceTo (0 + 5000)
        (runShows ⟨0, "", "form-status", []⟩
          ([] ++ (0, "Thank you! Your message has been sent successfully.", "success")
            :: [(3000, "Please correct the errors above.", "error")]))).statusCssClass
      = "form-status" :=
  status_banner_ttl [] [(3000, "Please correct the errors above.", "error")] 0
    "Thank you! Your message has been sent successfully." "success"
    ⟨0, "", "form-status", []⟩ (by simp)

end Script
